import Mathlib

/-!
Verification development for the dataclean repository: a shallow embedding of
the volume detector and datastore classifier (internal/docker), the data model
(internal/models) and the snapshot lifecycle manager (internal/snapshot),
together with theorems settling the specification claims.

Modelling conventions:
* Go strings are Lean `String`; Go `int64`/`int` are `Int`; `time.Time` is an
  `Int` measured in days (`AddDate(0,0,-d)` becomes subtraction of `d`,
  `Before`/`After` become `<`/`>`).
* Go maps that the code only iterates or looks up are association lists; the
  compose `services` map is a `List (String × ComposeService)` recording the
  order observed by the Go `range` loop (Go map iteration order is
  unspecified, so this order is an explicit parameter of the model).
* The compose `volumes` map is `Option (List String)`: `none` models a Go nil
  map (key absent, or present with a null value); `some keys` models a
  non-nil map with exactly those keys (for example `volumes: \x7b\x7d` parses to a
  non-nil empty map, modelled as `some []`).
* File-system and docker effects are modelled by explicit oracles
  (`CreateEnv`, `RestoreEnv`, `DirEntry`) plus an `Event` trace listing the
  external requests the manager issues, in order.
* Display-only derived fields (`SizeHuman`, `Checksum`) are omitted: no
  operation or claim reads them back.
-/

namespace DataClean

-- String literals used by the embedded code, bound to names once.
def emptyS : String := ""

def underscoreS : String := "_"

def slashS : String := "/"

def dotS : String := "."

-- Datastore type constants from internal/models (DatastoreType is a string).
def dsPostgres : String := "postgres"

def dsMySQL : String := "mysql"

def dsRedis : String := "redis"

def dsMongoDB : String := "mongodb"

def dsNeo4j : String := "neo4j"

def dsGeneric : String := "generic"

-- Extra substring keywords appearing in inferDatastoreType.
def kwMariadb : String := "mariadb"

def kwMongo : String := "mongo"

def kwPostgresql : String := "postgresql"

def kwPgdata : String := "pgdata"

def kwNeo4j : String := "neo4j"

def kwRedis : String := "redis"

def kwMysql : String := "mysql"

def kwPostgres : String := "postgres"

def tarSuffix : String := ".tar.gz"

def metadataFileS : String := "/metadata.yaml"

def preRestoreS : String := "_pre-restore-"

-- models.Volume (size_human omitted: display-only).
structure Volume where
  name : String
  datastoreType : String
  containerName : String
  mountPath : String
  imageName : String
  sizeBytes : Int
deriving DecidableEq

-- models.Snapshot (size_human and checksum omitted: display-only / unused).
structure Snapshot where
  name : String
  timestamp : Int
  volumes : List Volume
  sizeBytes : Int
  path : String
  tags : List String
  description : String
  metadata : List (String × String)
  parentName : String
  incremental : Bool
deriving DecidableEq

-- models.Config.
structure Config where
  composeFile : String
  includeVolumes : List String
  excludeVolumes : List String
  datastoreHints : List (String × String)
  snapshotDir : String
  backupBeforeRestore : Bool
  defaultTags : List String
  retentionDays : Int
deriving DecidableEq

-- Go strings.Contains, via character lists (kernel-reducible).
def takesAt (p l : List Char) : Bool :=
  match p, l with
  | [], _ => true
  | _ :: _, [] => false
  | c :: cs, d :: ds => c == d && takesAt cs ds

def hasSegment (p : List Char) : List Char → Bool
  | [] => takesAt p []
  | c :: ds => takesAt p (c :: ds) || hasSegment p ds

def strContains (s sub : String) : Bool :=
  hasSegment sub.toList s.toList

-- Go strings.ToLower, via Char.toLower (agrees on the ASCII keywords used).
def lowerStr (s : String) : String :=
  String.mk (s.toList.map Char.toLower)

-- Go strings.HasPrefix.
def hasPre (s pre : String) : Bool :=
  takesAt pre.toList s.toList

-- Go strings.Split(s, ":"): split on every colon, keeping empty fields.
def splitColonAux : List Char → List Char → List (List Char)
  | [], acc => [acc.reverse]
  | c :: cs, acc =>
    if c == ':' then acc.reverse :: splitColonAux cs []
    else splitColonAux cs (c :: acc)

def splitColon (s : String) : List String :=
  (splitColonAux s.toList []).map String.mk

-- Go helper contains(slice, item) from internal/docker.
def sliceContains (slice : List String) (item : String) : Bool :=
  match slice with
  | [] => false
  | s :: rest => s == item || sliceContains rest item

-- Go map lookup cfg.DatastoreHints[volumeName]: zero value "" when absent.
def lookupHint (hints : List (String × String)) (k : String) : String :=
  match hints with
  | [] => emptyS
  | p :: rest => if p.fst == k then p.snd else lookupHint rest k

-- Client.inferDatastoreType from internal/docker (part_005 lines 140-177),
-- translated switch arm by switch arm.
def inferDatastoreType (image mountPath : String) (hint : String) : String :=
  if hint != emptyS then hint
  else
    let imageLower := lowerStr image
    if strContains imageLower kwPostgres then dsPostgres
    else if strContains imageLower kwMysql || strContains imageLower kwMariadb then dsMySQL
    else if strContains imageLower kwRedis then dsRedis
    else if strContains imageLower kwMongo then dsMongoDB
    else if strContains imageLower kwNeo4j then dsNeo4j
    else if strContains mountPath kwPostgresql || strContains mountPath kwPgdata then dsPostgres
    else if strContains mountPath kwMysql then dsMySQL
    else if strContains mountPath kwRedis then dsRedis
    else if strContains mountPath kwMongo then dsMongoDB
    else if strContains mountPath kwNeo4j then dsNeo4j
    else dsGeneric

-- docker.ComposeService.
structure ComposeService where
  image : String
  containerName : String
  volumes : List String
deriving DecidableEq

-- docker.ComposeConfig. services keeps the order seen by the Go range loop;
-- volumes is none for a nil map, some keys for a non-nil map.
structure ComposeConfig where
  services : List (String × ComposeService)
  volumes : Option (List String)
deriving DecidableEq

-- Body of the inner loop of Client.DetectComposeVolumes (part_005 lines
-- 87-133): each continue becomes none, the final append becomes some.
def processMount (cfg : Config) (declared : Option (List String))
    (projectName : String) (svc : ComposeService) (volumeMount : String) : Option Volume :=
  match splitColon volumeMount with
  | volumeName :: mountPath :: _ =>
    if hasPre volumeName dotS || hasPre volumeName slashS then none
    else if (match declared with
             | some decl => !(sliceContains decl volumeName)
             | none => false) then none
    else if !(cfg.includeVolumes.isEmpty) && !(sliceContains cfg.includeVolumes volumeName) then none
    else if sliceContains cfg.excludeVolumes volumeName then none
    else
      some
        { name := projectName ++ underscoreS ++ volumeName,
          datastoreType :=
            inferDatastoreType svc.image mountPath (lookupHint cfg.datastoreHints volumeName),
          containerName := svc.containerName,
          mountPath := mountPath,
          imageName := svc.image,
          sizeBytes := 0 }
  | _ => none

-- Client.DetectComposeVolumes (part_005 lines 53-137), from the parsed
-- compose document onward. Locating and YAML-parsing the compose file are
-- I/O steps preceding the modelled core; projectName is the result of
-- getProjectName (the base name of the working directory).
def detectComposeVolumes (compose : ComposeConfig) (cfg : Config)
    (projectName : String) : List Volume :=
  compose.services.flatMap
    (fun sp => sp.snd.volumes.filterMap (processMount cfg compose.volumes projectName sp.snd))

-- snapshot.CreateOptions.
structure CreateOptions where
  tags : List String
  description : String
  metadata : List (String × String)
  incremental : Bool
  parentName : String
deriving DecidableEq

def emptyOptions : CreateOptions :=
  { tags := [], description := emptyS, metadata := [], incremental := false, parentName := emptyS }

-- External requests issued by the manager, in order of issue.
inductive Event where
  | stopContainers (vols : List Volume)
  | exportVolume (volName : String) (destPath : String)
  | startContainers (vols : List Volume)
  | writeMetadata (path : String)
  | importVolume (srcPath : String) (volName : String)
deriving DecidableEq

inductive SnapErr where
  | mkdirFailed
  | exportFailed (volName : String)
  | writeFailed
  | snapshotNotFound
  | importFailed (volName : String)
deriving DecidableEq

-- Oracle for the effects Manager.CreateWithOptions performs: directory
-- creation, per-volume docker export (keyed by volume name), os.Stat of the
-- produced archive (some size when stat succeeds), and the metadata write.
structure CreateEnv where
  mkdirOk : Bool
  exportOk : String → Bool
  statSize : String → Option Int
  writeOk : Bool

-- sanitizeName (part_004 lines 233-240). The source chains one
-- strings.ReplaceAll per unsafe character; since every replacement target is
-- a single character, none of which is the underscore, the chain equals one
-- simultaneous character map.
def badChars : List Char :=
  ['/', '\\', ':', '*', '?', '"', '<', '>', '|']

def sanitizeChar (c : Char) : Char :=
  if badChars.contains c then '_' else c

def sanitizeName (name : String) : String :=
  String.mk (name.toList.map sanitizeChar)

-- Archive path for a volume inside a snapshot directory (part_004 line 63).
def tarPathFor (snapshotDir : String) (v : Volume) : String :=
  snapshotDir ++ slashS ++ sanitizeName v.name ++ tarSuffix

def exportEvent (snapshotDir : String) (v : Volume) : Event :=
  Event.exportVolume v.name (tarPathFor snapshotDir v)

-- Export loop of CreateWithOptions (part_004 lines 62-78): on export failure
-- return immediately; on success stat the archive, record its size on the
-- volume when stat succeeds, and accumulate the total.
def exportLoop (env : CreateEnv) (snapshotDir : String) :
    List Volume → List Event × Except SnapErr (List Volume × Int)
  | [] => ([], Except.ok ([], 0))
  | v :: vs =>
    let dest := tarPathFor snapshotDir v
    if env.exportOk v.name then
      let upd :=
        match env.statSize dest with
        | some n => ({ v with sizeBytes := n }, n)
        | none => (v, 0)
      let rest := exportLoop env snapshotDir vs
      (exportEvent snapshotDir v :: rest.fst,
        match rest.snd with
        | Except.ok p => Except.ok (upd.fst :: p.fst, upd.snd + p.snd)
        | Except.error e => Except.error e)
    else ([exportEvent snapshotDir v], Except.error (SnapErr.exportFailed v.name))

-- Manager.CreateWithOptions (part_004 lines 46-109). now is time.Now().
-- The deferred StartContainers runs on every exit path after the stop, so
-- the start event is appended last on each such path. yaml.Marshal of this
-- record cannot fail and is not modelled; writeOk models os.WriteFile.
def createWithOptions (env : CreateEnv) (cfg : Config) (now : Int)
    (name : String) (volumes : List Volume) (opts : CreateOptions) :
    List Event × Except SnapErr Snapshot :=
  let snapshotDir := cfg.snapshotDir ++ slashS ++ name
  if env.mkdirOk then
    let res := exportLoop env snapshotDir volumes
    match res.snd with
    | Except.error e =>
      (Event.stopContainers volumes :: res.fst ++ [Event.startContainers volumes],
        Except.error e)
    | Except.ok p =>
      let snap : Snapshot :=
        { name := name,
          timestamp := now,
          volumes := p.fst,
          sizeBytes := p.snd,
          path := snapshotDir,
          tags := cfg.defaultTags ++ opts.tags,
          description := opts.description,
          metadata := opts.metadata,
          parentName := opts.parentName,
          incremental := opts.incremental }
      if env.writeOk then
        (Event.stopContainers volumes ::
            res.fst ++ [Event.writeMetadata (snapshotDir ++ metadataFileS),
              Event.startContainers volumes],
          Except.ok snap)
      else
        (Event.stopContainers volumes ::
            res.fst ++ [Event.writeMetadata (snapshotDir ++ metadataFileS),
              Event.startContainers volumes],
          Except.error SnapErr.writeFailed)
  else ([], Except.error SnapErr.mkdirFailed)

-- Manager.Create (part_004 lines 41-43).
def create (env : CreateEnv) (cfg : Config) (now : Int) (name : String)
    (volumes : List Volume) : List Event × Except SnapErr Snapshot :=
  createWithOptions env cfg now name volumes emptyOptions

-- Manager.loadMetadata (part_004 lines 214-230): stored is the parsed
-- record when metadata.yaml is readable and well-formed, none otherwise;
-- on success the record's path is overwritten with the actual directory.
def loadMetadata (stored : Option Snapshot) (snapshotDir : String) :
    Except SnapErr Snapshot :=
  match stored with
  | none => Except.error SnapErr.snapshotNotFound
  | some snap => Except.ok { snap with path := snapshotDir }

-- Manager.Get (part_004 lines 202-205).
def getSnapshot (stored : Option Snapshot) (cfg : Config) (name : String) :
    Except SnapErr Snapshot :=
  loadMetadata stored (cfg.snapshotDir ++ slashS ++ name)

-- Oracle for Manager.Restore: the loadMetadata outcome for the requested
-- snapshot, the effect oracle for the nested auto-backup Create, and the
-- per-volume docker import outcome.
structure RestoreEnv where
  record : Option Snapshot
  backupEnv : CreateEnv
  impOk : String → Bool

def impEvent (snapshotDir : String) (v : Volume) : Event :=
  Event.importVolume (tarPathFor snapshotDir v) v.name

-- Import loop of Restore (part_004 lines 132-138).
def impLoop (env : RestoreEnv) (snapshotDir : String) :
    List Volume → List Event × Except SnapErr Unit
  | [] => ([], Except.ok ())
  | v :: vs =>
    if env.impOk v.name then
      let rest := impLoop env snapshotDir vs
      (impEvent snapshotDir v :: rest.fst, rest.snd)
    else ([impEvent snapshotDir v], Except.error (SnapErr.importFailed v.name))

-- Manager.Restore (part_004 lines 112-141). nowStr is the formatted
-- timestamp used in the auto-backup name; the nested Create's result is
-- discarded exactly as in the source (its trace is kept, its error ignored).
def restore (env : RestoreEnv) (cfg : Config) (now : Int) (nowStr : String)
    (name : String) : List Event × Except SnapErr Unit :=
  let snapshotDir := cfg.snapshotDir ++ slashS ++ name
  match loadMetadata env.record snapshotDir with
  | Except.error e => ([], Except.error e)
  | Except.ok snap =>
    let backupTrace :=
      if cfg.backupBeforeRestore then
        (create env.backupEnv cfg now (preRestoreS ++ nowStr) snap.volumes).fst
      else []
    let res := impLoop env snapshotDir snap.volumes
    (backupTrace ++ Event.stopContainers snap.volumes :: res.fst ++
        [Event.startContainers snap.volumes],
      res.snd)

-- One entry of os.ReadDir on the snapshot root: its name, whether it is a
-- directory, and the loadMetadata outcome for it (some record when
-- metadata.yaml inside it is readable and well-formed).
structure DirEntry where
  name : String
  isDir : Bool
  record : Option Snapshot
deriving DecidableEq

-- sort.Slice with less i j = Timestamp(i).After(Timestamp(j)) (part_004
-- lines 194-196) produces some permutation that is non-increasing in
-- timestamp; insertion sort is the deterministic refinement used here.
def insertByTsDesc (s : Snapshot) : List Snapshot → List Snapshot
  | [] => [s]
  | t :: ts => if s.timestamp > t.timestamp then s :: t :: ts else t :: insertByTsDesc s ts

def sortByTsDesc (l : List Snapshot) : List Snapshot :=
  l.foldr insertByTsDesc []

-- Manager.List (part_004 lines 166-199): keep directories whose record
-- loads, skip everything else, then sort newest first.
def listSnapshots (entries : List DirEntry) (cfg : Config) : List Snapshot :=
  sortByTsDesc
    (entries.filterMap
      (fun e =>
        if e.isDir then
          match loadMetadata e.record (cfg.snapshotDir ++ slashS ++ e.name) with
          | Except.ok snap => some snap
          | Except.error _ => none
        else none))

-- Manager.AddTag (part_004 lines 263-278) at the record level: the final
-- persisted record (a no-op save is skipped when the tag is present).
def addTag (snap : Snapshot) (tag : String) : Snapshot :=
  if sliceContains snap.tags tag then snap
  else { snap with tags := snap.tags ++ [tag] }

-- Sweep loop of CleanupOldSnapshots (part_004 lines 392-404), returning the
-- successfully deleted names and, for the trace, every name whose deletion
-- was attempted. deleteOk is the outcome oracle of Manager.Delete.
def sweep (cutoff : Int) (deleteOk : String → Bool) :
    List Snapshot → List String × List String
  | [] => ([], [])
  | s :: rest =>
    let r := sweep cutoff deleteOk rest
    if hasPre s.name underscoreS then r
    else if s.timestamp < cutoff then
      (if deleteOk s.name then s.name :: r.fst else r.fst, s.name :: r.snd)
    else r

-- Manager.CleanupOldSnapshots (part_004 lines 381-407). Returns (deleted
-- names, attempted deletions); the Go function returns only the first
-- component, the second records which Delete calls were issued.
def cleanupOldSnapshots (cfg : Config) (now : Int) (entries : List DirEntry)
    (deleteOk : String → Bool) : List String × List String :=
  if cfg.retentionDays ≤ 0 then ([], [])
  else
    let cutoff := now - cfg.retentionDays
    sweep cutoff deleteOk (listSnapshots entries cfg)

-- Unprefixed volume reference of a mount entry: the part before the first
-- colon.
def headRef (m : String) : String :=
  (splitColon m).headD emptyS

-- Spec-side survival predicate: a mount entry parses into at least
-- reference and path, is not a bind mount, passes the declared-volumes
-- check and the include/exclude filters.
def mountSurvives (cfg : Config) (declared : Option (List String)) (m : String) : Bool :=
  match splitColon m with
  | volumeName :: _ :: _ =>
    !(hasPre volumeName dotS || hasPre volumeName slashS) &&
      (match declared with
       | some decl => sliceContains decl volumeName
       | none => true) &&
      (cfg.includeVolumes.isEmpty || sliceContains cfg.includeVolumes volumeName) &&
      !(sliceContains cfg.excludeVolumes volumeName)
  | _ => false

-- Spec-side emission: the Volume built for one surviving service mount.
def emitVolume (cfg : Config) (projectName : String) (svc : ComposeService)
    (m : String) : Volume :=
  let parts := splitColon m
  let volumeName := parts.headD emptyS
  let mountPath := (parts.drop 1).headD emptyS
  { name := projectName ++ underscoreS ++ volumeName,
    datastoreType :=
      inferDatastoreType svc.image mountPath (lookupHint cfg.datastoreHints volumeName),
    containerName := svc.containerName,
    mountPath := mountPath,
    imageName := svc.image,
    sizeBytes := 0 }

-- Spec-side enumeration of the surviving (service, mount entry) pairs in
-- manifest iteration order.
def survivingMounts (compose : ComposeConfig) (cfg : Config) :
    List (ComposeService × String) :=
  compose.services.flatMap
    (fun sp => (sp.snd.volumes.filter (mountSurvives cfg compose.volumes)).map (fun m => (sp.snd, m)))

-- Spec-side comparator for the declared-volumes claim: the per-mount body
-- with the declared-volumes check removed, following the spec words
-- accept all named references.
def acceptAllMount (cfg : Config) (projectName : String) (svc : ComposeService)
    (volumeMount : String) : Option Volume :=
  match splitColon volumeMount with
  | volumeName :: mountPath :: _ =>
    if hasPre volumeName dotS || hasPre volumeName slashS then none
    else if !(cfg.includeVolumes.isEmpty) && !(sliceContains cfg.includeVolumes volumeName) then none
    else if sliceContains cfg.excludeVolumes volumeName then none
    else
      some
        { name := projectName ++ underscoreS ++ volumeName,
          datastoreType :=
            inferDatastoreType svc.image mountPath (lookupHint cfg.datastoreHints volumeName),
          containerName := svc.containerName,
          mountPath := mountPath,
          imageName := svc.image,
          sizeBytes := 0 }
  | _ => none

-- Classifier as the claim words it: the hint wins; otherwise the first
-- case-insensitive image-substring match in the fixed order postgres,
-- mysql/mariadb, redis, mongo, neo4j; otherwise the first mount-path
-- substring match using the same ordered keyword groups; otherwise generic.
def claimClassify (image mountPath hint : String) : String :=
  if hint != emptyS then hint
  else
    let imageLower := lowerStr image
    if strContains imageLower kwPostgres then dsPostgres
    else if strContains imageLower kwMysql || strContains imageLower kwMariadb then dsMySQL
    else if strContains imageLower kwRedis then dsRedis
    else if strContains imageLower kwMongo then dsMongoDB
    else if strContains imageLower kwNeo4j then dsNeo4j
    else if strContains mountPath kwPostgres then dsPostgres
    else if strContains mountPath kwMysql || strContains mountPath kwMariadb then dsMySQL
    else if strContains mountPath kwRedis then dsRedis
    else if strContains mountPath kwMongo then dsMongoDB
    else if strContains mountPath kwNeo4j then dsNeo4j
    else dsGeneric

-- Image-keyword groups of the source's first switch, as a partial match.
def imageKind (imageLower : String) : Option String :=
  if strContains imageLower kwPostgres then some dsPostgres
  else if strContains imageLower kwMysql || strContains imageLower kwMariadb then some dsMySQL
  else if strContains imageLower kwRedis then some dsRedis
  else if strContains imageLower kwMongo then some dsMongoDB
  else if strContains imageLower kwNeo4j then some dsNeo4j
  else none

-- Mount-path keyword groups of the source's second switch: note the first
-- group is postgresql/pgdata (not postgres) and the second lacks mariadb.
def pathKind (mountPath : String) : Option String :=
  if strContains mountPath kwPostgresql || strContains mountPath kwPgdata then some dsPostgres
  else if strContains mountPath kwMysql then some dsMySQL
  else if strContains mountPath kwRedis then some dsRedis
  else if strContains mountPath kwMongo then some dsMongoDB
  else if strContains mountPath kwNeo4j then some dsNeo4j
  else none

-- The loop body of the detector equals filtering by mountSurvives and then
-- emitting.
lemma processMount_eq_survives (cfg : Config) (declared : Option (List String))
    (pname : String) (svc : ComposeService) (m : String) :
    processMount cfg declared pname svc m =
      if mountSurvives cfg declared m then some (emitVolume cfg pname svc m) else none := by
  unfold processMount mountSurvives emitVolume
  cases h : splitColon m with
  | nil => simp
  | cons a t =>
    cases t with
    | nil => simp
    | cons b t2 =>
      cases declared with
      | none =>
        by_cases hd : hasPre a dotS = true <;>
          by_cases hs : hasPre a slashS = true <;>
          by_cases hi : cfg.includeVolumes.isEmpty = true <;>
          by_cases hic : sliceContains cfg.includeVolumes a = true <;>
          by_cases he : sliceContains cfg.excludeVolumes a = true <;>
          simp_all
      | some decl =>
        by_cases hd : hasPre a dotS = true <;>
          by_cases hs : hasPre a slashS = true <;>
          by_cases h2 : sliceContains decl a = true <;>
          by_cases hi : cfg.includeVolumes.isEmpty = true <;>
          by_cases hic : sliceContains cfg.includeVolumes a = true <;>
          by_cases he : sliceContains cfg.excludeVolumes a = true <;>
          simp_all

lemma filterMap_processMount (cfg : Config) (declared : Option (List String))
    (pname : String) (svc : ComposeService) (l : List String) :
    l.filterMap (processMount cfg declared pname svc) =
      (l.filter (mountSurvives cfg declared)).map (emitVolume cfg pname svc) := by
  induction l with
  | nil => rfl
  | cons m rest ih =>
    by_cases hm : mountSurvives cfg declared m = true <;>
      simp [List.filterMap_cons, List.filter_cons, processMount_eq_survives, hm, ih]

-- The detector body with the declared-volumes check removed equals the
-- per-mount body run with a nil declared map.
lemma processMount_none_eq (cfg : Config) (pname : String) (svc : ComposeService)
    (m : String) :
    processMount cfg none pname svc m = acceptAllMount cfg pname svc m := by
  unfold processMount acceptAllMount
  cases h : splitColon m with
  | nil => rfl
  | cons a t =>
    cases t with
    | nil => rfl
    | cons b t2 => simp

-- Function-level form of processMount_none_eq, for rewriting partial
-- applications.
lemma processMount_none_fun (cfg : Config) (pname : String) (svc : ComposeService) :
    processMount cfg none pname svc = acceptAllMount cfg pname svc :=
  funext (processMount_none_eq cfg pname svc)

-- Concrete fixtures used by witnesses and counterexamples.
def dotDataclean : String := ".dataclean"

def cfg0 : Config :=
  { composeFile := emptyS, includeVolumes := [], excludeVolumes := [],
    datastoreHints := [], snapshotDir := dotDataclean, backupBeforeRestore := true,
    defaultTags := [], retentionDays := 0 }

def pN : String := "p"

def nameA : String := "a"

def nameB : String := "b"

def mountVA : String := "va:/x"

def mountVB : String := "vb:/y"

def svcA : ComposeService :=
  { image := emptyS, containerName := emptyS, volumes := [mountVA] }

def svcB : ComposeService :=
  { image := emptyS, containerName := emptyS, volumes := [mountVB] }

def composeAB : ComposeConfig :=
  { services := [(nameA, svcA), (nameB, svcB)], volumes := none }

def composeBA : ComposeConfig :=
  { services := [(nameB, svcB), (nameA, svcA)], volumes := none }

def nameD : String := "db"

def mountDX : String := "data:/x"

def svcD : ComposeService :=
  { image := emptyS, containerName := emptyS, volumes := [mountDX] }

def composeEmptyDecl : ComposeConfig :=
  { services := [(nameD, svcD)], volumes := some [] }

/-- C3: every Volume the detector emits is named by concatenating the
project name, an underscore and the unprefixed volume reference, and the
emitted list is exactly one Volume per surviving (service, mount entry)
pair in manifest iteration order, with no deduplication across services. -/
theorem detect_names_and_multiplicity (compose : ComposeConfig) (cfg : Config)
    (pname : String) :
    detectComposeVolumes compose cfg pname =
      (survivingMounts compose cfg).map (fun sm => emitVolume cfg pname sm.fst sm.snd)
    ∧ ∀ v ∈ detectComposeVolumes compose cfg pname,
        ∃ sp ∈ compose.services, ∃ m ∈ sp.snd.volumes,
          mountSurvives cfg compose.volumes m = true ∧
          v.name = pname ++ underscoreS ++ headRef m := by
  constructor
  · unfold detectComposeVolumes survivingMounts
    rw [List.map_flatMap]
    simp only [filterMap_processMount, List.map_map, Function.comp]
    rfl
  · intro v hv
    unfold detectComposeVolumes at hv
    simp only [List.mem_flatMap, List.mem_filterMap] at hv
    obtain ⟨sp, hsp, m, hm, hpm⟩ := hv
    rw [processMount_eq_survives] at hpm
    by_cases hs : mountSurvives cfg compose.volumes m = true
    · rw [if_pos hs] at hpm
      refine ⟨sp, hsp, m, hm, hs, ?_⟩
      obtain rfl := Option.some.inj hpm
      rfl
    · rw [if_neg hs] at hpm
      exact absurd hpm (by simp)

/-- C3 witness: instantiation of the membership conjunct on a concrete
two-service manifest. -/
theorem detect_names_and_multiplicity_witness :
    ∃ sp ∈ composeAB.services, ∃ m ∈ sp.snd.volumes,
      mountSurvives cfg0 composeAB.volumes m = true ∧
      (emitVolume cfg0 pN svcA mountVA).name = pN ++ underscoreS ++ headRef m :=
  (detect_names_and_multiplicity composeAB cfg0 pN).2
    (emitVolume cfg0 pN svcA mountVA) (by decide)

/-- C4 (amended): a nil declared-volumes map (absent section, or one parsed
as null) imposes no declaration check, so every named reference passing the
other filters is accepted; a non-nil declared map, even an empty one, skips
every mount whose reference it does not list. -/
theorem declared_volumes_check (cfg : Config) (pname : String)
    (svc : ComposeService) (m : String) (decl : List String)
    (compose : ComposeConfig) :
    (processMount cfg none pname svc m = acceptAllMount cfg pname svc m)
    ∧ (sliceContains decl (headRef m) = false →
        processMount cfg (some decl) pname svc m = none)
    ∧ (compose.volumes = none →
        detectComposeVolumes compose cfg pname =
          compose.services.flatMap
            (fun sp => sp.snd.volumes.filterMap (acceptAllMount cfg pname sp.snd))) := by
  refine ⟨processMount_none_eq cfg pname svc m, ?_, ?_⟩
  · intro h
    unfold headRef at h
    unfold processMount
    cases hsplit : splitColon m with
    | nil => rfl
    | cons a t =>
      cases t with
      | nil => rfl
      | cons b t2 =>
        rw [hsplit] at h
        simp only [List.headD_cons] at h
        by_cases hd : (hasPre a dotS || hasPre a slashS) = true <;> simp [hd, h]
  · intro hv
    unfold detectComposeVolumes
    rw [hv]
    simp only [processMount_none_fun]

/-- C4 witness: the skip conjunct at an undeclared reference and the
nil-map conjunct on a concrete manifest. -/
theorem declared_volumes_check_witness :
    (processMount cfg0 (some []) pN svcD mountDX = none)
    ∧ (detectComposeVolumes composeAB cfg0 pN =
        composeAB.services.flatMap
          (fun sp => sp.snd.volumes.filterMap (acceptAllMount cfg0 pN sp.snd))) :=
  ⟨(declared_volumes_check cfg0 pN svcD mountDX [] composeAB).2.1 (by decide),
    (declared_volumes_check cfg0 pN svcD mountDX [] composeAB).2.2 rfl⟩

/-- C4 counterexample: a manifest whose volumes section is present but
empty (a non-nil empty map) causes every named non-bind reference to be
skipped, while the identical manifest with the section absent accepts the
reference; the claim requires the empty section to accept it. -/
theorem empty_declared_section_skips :
    composeEmptyDecl.volumes = some [] ∧
    detectComposeVolumes composeEmptyDecl cfg0 pN = [] ∧
    detectComposeVolumes { services := composeEmptyDecl.services, volumes := none } cfg0 pN ≠ [] := by
  refine ⟨rfl, by decide, by decide⟩

set_option maxHeartbeats 1000000 in
/-- C5 (amended): the classifier is total; a non-empty hint always wins;
otherwise the first case-insensitive image keyword group in the order
postgres, mysql/mariadb, redis, mongo, neo4j decides; otherwise the mount
path decides through the groups postgresql/pgdata, mysql, redis, mongo,
neo4j (case-sensitive, and not the image groups); otherwise generic. -/
theorem classifier_precedence (image mountPath hint : String) :
    (hint ≠ emptyS → inferDatastoreType image mountPath hint = hint)
    ∧ (hint = emptyS →
        inferDatastoreType image mountPath hint =
          (match imageKind (lowerStr image) with
           | some k => k
           | none =>
             match pathKind mountPath with
             | some k => k
             | none => dsGeneric)) := by
  constructor
  · intro h
    simp [inferDatastoreType, bne_iff_ne, h]
  · intro h
    subst h
    simp only [inferDatastoreType, imageKind, pathKind, bne_self_eq_false,
      Bool.false_eq_true, if_false]
    split_ifs <;> rfl

/-- C5 witness: hint precedence and the no-hint evaluation at concrete
arguments. -/
theorem classifier_precedence_witness :
    inferDatastoreType kwPostgres kwRedis dsNeo4j = dsNeo4j ∧
    inferDatastoreType kwPostgres kwRedis emptyS =
      (match imageKind (lowerStr kwPostgres) with
       | some k => k
       | none =>
         match pathKind kwRedis with
         | some k => k
         | none => dsGeneric) :=
  ⟨(classifier_precedence kwPostgres kwRedis dsNeo4j).1 (by decide),
    (classifier_precedence kwPostgres kwRedis emptyS).2 rfl⟩

/-- C5 counterexample: on a mount path containing mariadb and no image or
hint, the code returns generic while the claim's ordered keyword groups
(the image groups, reused for the path) require mysql. -/
theorem classifier_path_groups_differ :
    inferDatastoreType emptyS kwMariadb emptyS = dsGeneric ∧
    claimClassify emptyS kwMariadb emptyS = dsMySQL ∧
    inferDatastoreType emptyS kwMariadb emptyS ≠ claimClassify emptyS kwMariadb emptyS := by
  refine ⟨by decide, by decide, by decide⟩

/-- C9 (amended): for a fixed service iteration order the detector is a
function of the manifest, and permuting the iteration order permutes the
emitted list: two detections over the same manifest always agree up to
permutation, while the relative order across services follows the
unspecified map iteration order. -/
theorem detect_perm_of_services_perm (cfg : Config) (pname : String)
    (declared : Option (List String)) (s1 s2 : List (String × ComposeService))
    (h : s1.Perm s2) :
    (detectComposeVolumes { services := s1, volumes := declared } cfg pname).Perm
      (detectComposeVolumes { services := s2, volumes := declared } cfg pname) := by
  unfold detectComposeVolumes
  exact h.flatMap_right _

/-- C9 witness: the permutation conjunct at two concrete iteration orders
of one manifest. -/
theorem detect_perm_of_services_perm_witness :
    (detectComposeVolumes { services := composeAB.services, volumes := none } cfg0 pN).Perm
      (detectComposeVolumes { services := composeBA.services, volumes := none } cfg0 pN) :=
  detect_perm_of_services_perm cfg0 pN none composeAB.services composeBA.services
    (List.Perm.swap (nameB, svcB) (nameA, svcA) [])

/-- C9 counterexample: two iteration orders of the same two-service
manifest produce different ordered lists, so detection is not a function
of the manifest alone as the claim requires. -/
theorem detect_order_depends_on_iteration :
    composeAB.services.Perm composeBA.services ∧
    detectComposeVolumes composeAB cfg0 pN ≠ detectComposeVolumes composeBA cfg0 pN := by
  refine ⟨List.Perm.swap (nameB, svcB) (nameA, svcA) [], by decide⟩

-- First-failure characterisation of the export loop: up to and including
-- the first failing volume an export is attempted, the rest are aborted,
-- and the first failure's error is returned.
def defaultVol : Volume :=
  { name := emptyS, datastoreType := dsGeneric, containerName := emptyS,
    mountPath := emptyS, imageName := emptyS, sizeBytes := 0 }

-- The volume at the first failing index, phrased without dependent
-- indexing.
def firstFailing (pred : Volume → Bool) (volumes : List Volume) : Volume :=
  (volumes.drop (volumes.findIdx pred)).headD defaultVol

lemma exportLoop_first_failure (env : CreateEnv) (dir : String) (volumes : List Volume)
    (h : volumes.findIdx (fun v => !env.exportOk v.name) < volumes.length) :
    exportLoop env dir volumes =
      ((volumes.take (volumes.findIdx (fun v => !env.exportOk v.name) + 1)).map (exportEvent dir),
        Except.error (SnapErr.exportFailed
          (firstFailing (fun v => !env.exportOk v.name) volumes).name)) := by
  induction volumes with
  | nil => simp at h
  | cons v vs ih =>
    by_cases hv : env.exportOk v.name = true
    · have hfi : (v :: vs).findIdx (fun v => !env.exportOk v.name) =
          vs.findIdx (fun v => !env.exportOk v.name) + 1 := by
        simp [List.findIdx_cons, hv]
      have hrec : vs.findIdx (fun v => !env.exportOk v.name) < vs.length := by
        rw [hfi] at h
        simpa using h
      unfold firstFailing
      rw [hfi]
      simp only [exportLoop, hv, if_true, List.take_succ_cons, List.drop_succ_cons]
      rw [ih hrec]
      simp [firstFailing]
    · have hfi : (v :: vs).findIdx (fun v => !env.exportOk v.name) = 0 := by
        simp [List.findIdx_cons, hv]
      unfold firstFailing
      rw [hfi]
      simp [exportLoop, hv]

/-- C1: whenever some volume's export fails during snapshot creation (and
the snapshot directory was created), the first failure aborts the remaining
exports, its error is returned, the metadata record is never written, and
the container resume request is still issued; moreover resume is issued on
every exit path reached after the containers were stopped. -/
theorem create_export_failure (env : CreateEnv) (cfg : Config) (now : Int)
    (name : String) (volumes : List Volume) (opts : CreateOptions) :
    (volumes.findIdx (fun v => !env.exportOk v.name) < volumes.length →
      env.mkdirOk = true →
      createWithOptions env cfg now name volumes opts =
        (Event.stopContainers volumes ::
            ((volumes.take (volumes.findIdx (fun v => !env.exportOk v.name) + 1)).map
              (exportEvent (cfg.snapshotDir ++ slashS ++ name)) ++
            [Event.startContainers volumes]),
          Except.error (SnapErr.exportFailed
            (firstFailing (fun v => !env.exportOk v.name) volumes).name)))
    ∧ (env.mkdirOk = true →
        Event.startContainers volumes ∈ (createWithOptions env cfg now name volumes opts).fst) := by
  constructor
  · intro h hm
    simp only [createWithOptions, hm, if_true]
    rw [exportLoop_first_failure env (cfg.snapshotDir ++ slashS ++ name) volumes h]
    rfl
  · intro hm
    simp only [createWithOptions, hm, if_true]
    rcases hsnd : (exportLoop env (cfg.snapshotDir ++ slashS ++ name) volumes).snd with e | p
    · simp [hsnd]
    · by_cases hw : env.writeOk = true <;> simp [hsnd, hw]

-- Fixtures for the creation claims.
def sName : String := "s"

def nV1 : String := "v1"

def nV2 : String := "v2"

def volFix (n : String) : Volume :=
  { name := n, datastoreType := dsGeneric, containerName := emptyS,
    mountPath := emptyS, imageName := emptyS, sizeBytes := 0 }

def volsC1 : List Volume := [volFix nV1, volFix nV2]

def envAllOk : CreateEnv :=
  { mkdirOk := true, exportOk := fun _ => true, statSize := fun _ => none, writeOk := true }

def envFail2 : CreateEnv :=
  { mkdirOk := true, exportOk := fun n => n != nV2, statSize := fun _ => none, writeOk := true }

/-- C1 witness: a two-volume creation whose second export fails. -/
theorem create_export_failure_witness :
    createWithOptions envFail2 cfg0 0 sName volsC1 emptyOptions =
      (Event.stopContainers volsC1 ::
          ((volsC1.take (volsC1.findIdx (fun v => !envFail2.exportOk v.name) + 1)).map
            (exportEvent (cfg0.snapshotDir ++ slashS ++ sName)) ++
          [Event.startContainers volsC1]),
        Except.error (SnapErr.exportFailed
          (firstFailing (fun v => !envFail2.exportOk v.name) volsC1).name))
    ∧ Event.startContainers volsC1 ∈
        (createWithOptions envFail2 cfg0 0 sName volsC1 emptyOptions).fst :=
  ⟨(create_export_failure envFail2 cfg0 0 sName volsC1 emptyOptions).1 (by decide) rfl,
    (create_export_failure envFail2 cfg0 0 sName volsC1 emptyOptions).2 rfl⟩

-- The import loop reads only the impOk oracle of its environment.
lemma impLoop_congr (e1 e2 : RestoreEnv) (h : e1.impOk = e2.impOk)
    (dir : String) : ∀ l : List Volume, impLoop e1 dir l = impLoop e2 dir l := by
  intro l
  induction l with
  | nil => rfl
  | cons v vs ih => simp only [impLoop, h, ih]

-- First-failure characterisation of the import loop.
lemma impLoop_first_failure (env : RestoreEnv) (dir : String) (volumes : List Volume)
    (h : volumes.findIdx (fun v => !env.impOk v.name) < volumes.length) :
    impLoop env dir volumes =
      ((volumes.take (volumes.findIdx (fun v => !env.impOk v.name) + 1)).map (impEvent dir),
        Except.error (SnapErr.importFailed
          (firstFailing (fun v => !env.impOk v.name) volumes).name)) := by
  induction volumes with
  | nil => simp at h
  | cons v vs ih =>
    by_cases hv : env.impOk v.name = true
    · have hfi : (v :: vs).findIdx (fun v => !env.impOk v.name) =
          vs.findIdx (fun v => !env.impOk v.name) + 1 := by
        simp [List.findIdx_cons, hv]
      have hrec : vs.findIdx (fun v => !env.impOk v.name) < vs.length := by
        rw [hfi] at h
        simpa using h
      unfold firstFailing
      rw [hfi]
      simp only [impLoop, hv, if_true, List.take_succ_cons, List.drop_succ_cons]
      rw [ih hrec]
      simp [firstFailing]
    · have hfi : (v :: vs).findIdx (fun v => !env.impOk v.name) = 0 := by
        simp [List.findIdx_cons, hv]
      unfold firstFailing
      rw [hfi]
      simp [impLoop, hv]

/-- C2: restore of an absent or unreadable record fails with
SnapshotNotFound and issues no external request at all; the restore outcome
never depends on the auto-backup environment, so an auto-backup failure
cannot abort the restore; and with backup-before-restore enabled, the
first failed import aborts the remaining imports, its error is returned, and the
container resume request is still issued. -/
theorem restore_error_paths (env : RestoreEnv) (cfg : Config) (now : Int)
    (nowStr : String) (name : String) :
    (env.record = none → restore env cfg now nowStr name = ([], Except.error SnapErr.snapshotNotFound))
    ∧ (∀ env2 : RestoreEnv, env2.record = env.record → env2.impOk = env.impOk →
        (restore env2 cfg now nowStr name).snd = (restore env cfg now nowStr name).snd)
    ∧ (∀ snap, env.record = some snap → cfg.backupBeforeRestore = true →
        snap.volumes.findIdx (fun v => !env.impOk v.name) < snap.volumes.length →
        restore env cfg now nowStr name =
          ((create env.backupEnv cfg now (preRestoreS ++ nowStr) snap.volumes).fst ++
              Event.stopContainers snap.volumes ::
                ((snap.volumes.take (snap.volumes.findIdx (fun v => !env.impOk v.name) + 1)).map
                  (impEvent (cfg.snapshotDir ++ slashS ++ name)) ++
                [Event.startContainers snap.volumes]),
            Except.error (SnapErr.importFailed
              (firstFailing (fun v => !env.impOk v.name) snap.volumes).name))) := by
  refine ⟨?_, ?_, ?_⟩
  · intro h
    simp [restore, h, loadMetadata]
  · intro env2 hrec himp
    unfold restore
    rw [hrec]
    cases hr : env.record with
    | none => simp [loadMetadata]
    | some snap =>
      simp only [loadMetadata]
      rw [impLoop_congr env2 env himp]
  · intro snap hrec hb h
    unfold restore
    rw [hrec]
    simp only [loadMetadata, hb, if_true]
    rw [impLoop_first_failure env (cfg.snapshotDir ++ slashS ++ name) snap.volumes h]
    simp

-- Fixtures for the restore claims.
def snapRec (n : String) (ts : Int) : Snapshot :=
  { name := n, timestamp := ts, volumes := [], sizeBytes := 0, path := emptyS,
    tags := [], description := emptyS, metadata := [], parentName := emptyS,
    incremental := false }

def tN : String := "t"

def snapC2 : Snapshot := { snapRec sName 5 with volumes := volsC1 }

def renvNone : RestoreEnv :=
  { record := none, backupEnv := envAllOk, impOk := fun _ => true }

def renvC2 : RestoreEnv :=
  { record := some snapC2, backupEnv := envAllOk, impOk := fun n => n != nV2 }

def renvC2b : RestoreEnv :=
  { record := some snapC2, backupEnv := envFail2, impOk := fun n => n != nV2 }

/-- C2 witness: the three conjuncts at concrete restore environments — an
absent record, two environments differing only in the backup oracle, and a
two-volume restore whose second import fails. -/
theorem restore_error_paths_witness :
    restore renvNone cfg0 0 tN sName = ([], Except.error SnapErr.snapshotNotFound)
    ∧ (restore renvC2b cfg0 0 tN sName).snd = (restore renvC2 cfg0 0 tN sName).snd
    ∧ restore renvC2 cfg0 0 tN sName =
        ((create renvC2.backupEnv cfg0 0 (preRestoreS ++ tN) snapC2.volumes).fst ++
            Event.stopContainers snapC2.volumes ::
              ((snapC2.volumes.take (snapC2.volumes.findIdx (fun v => !renvC2.impOk v.name) + 1)).map
                (impEvent (cfg0.snapshotDir ++ slashS ++ sName)) ++
              [Event.startContainers snapC2.volumes]),
          Except.error (SnapErr.importFailed
            (firstFailing (fun v => !renvC2.impOk v.name) snapC2.volumes).name)) :=
  ⟨(restore_error_paths renvNone cfg0 0 tN sName).1 rfl,
    (restore_error_paths renvC2 cfg0 0 tN sName).2.1 renvC2b rfl rfl,
    (restore_error_paths renvC2 cfg0 0 tN sName).2.2 snapC2 rfl rfl (by decide)⟩

-- Insertion keeps the multiset.
lemma insertByTsDesc_perm (s : Snapshot) (l : List Snapshot) :
    (insertByTsDesc s l).Perm (s :: l) := by
  induction l with
  | nil => exact List.Perm.refl _
  | cons t ts ih =>
    unfold insertByTsDesc
    by_cases hc : s.timestamp > t.timestamp
    · rw [if_pos hc]
    · rw [if_neg hc]
      exact (ih.cons t).trans (List.Perm.swap s t ts)

lemma sortByTsDesc_perm (l : List Snapshot) : (sortByTsDesc l).Perm l := by
  induction l with
  | nil => exact List.Perm.refl _
  | cons s ts ih =>
    have : sortByTsDesc (s :: ts) = insertByTsDesc s (sortByTsDesc ts) := rfl
    rw [this]
    exact (insertByTsDesc_perm s (sortByTsDesc ts)).trans (ih.cons s)

-- Insertion preserves the non-increasing-timestamp invariant.
lemma insertByTsDesc_pairwise (s : Snapshot) (l : List Snapshot)
    (h : l.Pairwise (fun a b => b.timestamp ≤ a.timestamp)) :
    (insertByTsDesc s l).Pairwise (fun a b => b.timestamp ≤ a.timestamp) := by
  induction l with
  | nil => simp [insertByTsDesc]
  | cons t ts ih =>
    rw [List.pairwise_cons] at h
    unfold insertByTsDesc
    by_cases hc : s.timestamp > t.timestamp
    · rw [if_pos hc]
      rw [List.pairwise_cons]
      refine ⟨?_, List.pairwise_cons.mpr h⟩
      intro b hb
      rcases List.mem_cons.mp hb with hbt | hbts
      · rw [hbt]
        exact le_of_lt hc
      · exact le_trans (h.1 b hbts) (le_of_lt hc)
    · rw [if_neg hc]
      rw [List.pairwise_cons]
      refine ⟨?_, ih h.2⟩
      intro b hb
      have hb2 : b ∈ s :: ts := (insertByTsDesc_perm s ts).mem_iff.mp hb
      rcases List.mem_cons.mp hb2 with hbs | hbts
      · rw [hbs]
        exact not_lt.mp hc
      · exact h.1 b hbts

lemma sortByTsDesc_pairwise (l : List Snapshot) :
    (sortByTsDesc l).Pairwise (fun a b => b.timestamp ≤ a.timestamp) := by
  induction l with
  | nil => simp [sortByTsDesc]
  | cons s ts ih => exact insertByTsDesc_pairwise s (sortByTsDesc ts) ih

-- Spec-side catalog: the records of exactly those immediate subdirectories
-- whose metadata record is readable and well-formed, with the storage path
-- normalised to the actual directory.
def specCatalog (entries : List DirEntry) (cfg : Config) : List Snapshot :=
  entries.filterMap
    (fun e =>
      if e.isDir then
        e.record.map (fun r => { r with path := cfg.snapshotDir ++ slashS ++ e.name })
      else none)

lemma entryLoad_eq (cfg : Config) (e : DirEntry) :
    (if e.isDir then
       match loadMetadata e.record (cfg.snapshotDir ++ slashS ++ e.name) with
       | Except.ok snap => some snap
       | Except.error _ => none
     else none)
    = (if e.isDir then
         e.record.map (fun r => { r with path := cfg.snapshotDir ++ slashS ++ e.name })
       else none) := by
  by_cases hd : e.isDir = true <;> cases hr : e.record <;> simp [hd, hr, loadMetadata]

lemma listSnapshots_eq_sort (entries : List DirEntry) (cfg : Config) :
    listSnapshots entries cfg = sortByTsDesc (specCatalog entries cfg) := by
  unfold listSnapshots specCatalog
  congr 1
  induction entries with
  | nil => rfl
  | cons e rest ih =>
    simp only [List.filterMap_cons]
    rw [entryLoad_eq cfg e, ih]

/-- C7: List returns exactly the records of the immediate subdirectories
whose metadata record is readable and well-formed (plain files, directories
without a record and malformed records are skipped without error), as a
permutation sorted by timestamp descending, newest first. -/
theorem list_valid_records_sorted (entries : List DirEntry) (cfg : Config) :
    (listSnapshots entries cfg).Perm (specCatalog entries cfg)
    ∧ (listSnapshots entries cfg).Pairwise (fun a b => b.timestamp ≤ a.timestamp) := by
  constructor
  · rw [listSnapshots_eq_sort]
    exact sortByTsDesc_perm _
  · rw [listSnapshots_eq_sort]
    exact sortByTsDesc_pairwise _

-- First-failure sweep characterisation: deletion is attempted exactly on
-- the unmarked expired snapshots, and the returned names are those whose
-- deletion succeeded; a failed deletion does not stop the sweep.
lemma sweep_spec (cutoff : Int) (dok : String → Bool) (ls : List Snapshot) :
    (sweep cutoff dok ls).fst =
      (ls.filter (fun s =>
        !(hasPre s.name underscoreS) && decide (s.timestamp < cutoff) && dok s.name)).map Snapshot.name
    ∧ (sweep cutoff dok ls).snd =
      (ls.filter (fun s =>
        !(hasPre s.name underscoreS) && decide (s.timestamp < cutoff))).map Snapshot.name := by
  induction ls with
  | nil => exact ⟨rfl, rfl⟩
  | cons s rest ih =>
    by_cases h1 : hasPre s.name underscoreS = true
    · simp [sweep, List.filter_cons, h1, ih.1, ih.2]
    · by_cases h2 : s.timestamp < cutoff
      · by_cases h3 : dok s.name = true <;>
          simp [sweep, List.filter_cons, h1, h2, h3, ih.1, ih.2]
      · simp [sweep, List.filter_cons, h1, h2, ih.1, ih.2]

/-- C6: cleanup is a no-op returning an empty list when retention is
disabled; otherwise it attempts to delete exactly the catalog snapshots
without the auto-backup marker whose timestamp is strictly before now minus
retention-days, returns the successfully deleted names, and keeps sweeping
past individual deletion failures; marker-prefixed snapshots are retained
regardless of age. -/
theorem cleanup_retention (cfg : Config) (now : Int) (entries : List DirEntry)
    (dok : String → Bool) :
    (cfg.retentionDays ≤ 0 → cleanupOldSnapshots cfg now entries dok = ([], []))
    ∧ (0 < cfg.retentionDays →
        (cleanupOldSnapshots cfg now entries dok).fst =
          ((listSnapshots entries cfg).filter (fun s =>
            !(hasPre s.name underscoreS) && decide (s.timestamp < now - cfg.retentionDays) &&
              dok s.name)).map Snapshot.name
        ∧ (cleanupOldSnapshots cfg now entries dok).snd =
          ((listSnapshots entries cfg).filter (fun s =>
            !(hasPre s.name underscoreS) &&
              decide (s.timestamp < now - cfg.retentionDays))).map Snapshot.name) := by
  constructor
  · intro h
    simp [cleanupOldSnapshots, h]
  · intro h
    have hn : ¬ cfg.retentionDays ≤ 0 := not_le.mpr h
    simp only [cleanupOldSnapshots, hn, if_false]
    exact sweep_spec (now - cfg.retentionDays) dok (listSnapshots entries cfg)

-- Fixtures for the retention claim.
def nOld : String := "old"

def nBackup : String := "_backup"

def nOlder : String := "older"

def entOld : DirEntry := { name := nOld, isDir := true, record := some (snapRec nOld 90) }

def entBackup : DirEntry := { name := nBackup, isDir := true, record := some (snapRec nBackup 1) }

def entOlder : DirEntry := { name := nOlder, isDir := true, record := some (snapRec nOlder 2) }

def entriesC6 : List DirEntry := [entOld, entBackup, entOlder]

def dokC6 : String → Bool := fun n => n != nOlder

def cfg7 : Config := { cfg0 with retentionDays := 7 }

/-- C6 witness: disabled retention on one config, and an enabled sweep over
a catalog holding a fresh snapshot, an old marker-prefixed backup, and an
old snapshot whose deletion fails. -/
theorem cleanup_retention_witness :
    cleanupOldSnapshots cfg0 100 entriesC6 dokC6 = ([], [])
    ∧ (cleanupOldSnapshots cfg7 100 entriesC6 dokC6).fst =
        ((listSnapshots entriesC6 cfg7).filter (fun s =>
          !(hasPre s.name underscoreS) && decide (s.timestamp < 100 - cfg7.retentionDays) &&
            dokC6 s.name)).map Snapshot.name
    ∧ (cleanupOldSnapshots cfg7 100 entriesC6 dokC6).snd =
        ((listSnapshots entriesC6 cfg7).filter (fun s =>
          !(hasPre s.name underscoreS) &&
            decide (s.timestamp < 100 - cfg7.retentionDays))).map Snapshot.name :=
  ⟨(cleanup_retention cfg0 100 entriesC6 dokC6).1 (by decide),
    ((cleanup_retention cfg7 100 entriesC6 dokC6).2 (by decide)).1,
    ((cleanup_retention cfg7 100 entriesC6 dokC6).2 (by decide)).2⟩

lemma sliceContains_iff (l : List String) (a : String) :
    sliceContains l a = true ↔ a ∈ l := by
  induction l with
  | nil => simp [sliceContains]
  | cons s rest ih =>
    simp only [sliceContains, Bool.or_eq_true, beq_iff_eq, ih, List.mem_cons]
    constructor
    · rintro (h | h)
      · exact Or.inl h.symm
      · exact Or.inr h
    · rintro (h | h)
      · exact Or.inl h.symm
      · exact Or.inr h

-- Fixtures for the tag claims.
def tagA : String := "a"

def cfgTagA : Config := { cfg0 with defaultTags := [tagA] }

def optsTagA : CreateOptions := { emptyOptions with tags := [tagA] }

def resC8 : Snapshot :=
  { name := sName, timestamp := 0, volumes := [], sizeBytes := 0,
    path := dotDataclean ++ slashS ++ sName, tags := [tagA, tagA],
    description := emptyS, metadata := [], parentName := emptyS,
    incremental := false }

/-- C8 counterexample: with the same tag among the config's default tags
and the option tags, Create produces the tag list with that tag twice, so
the created record's tag set is not duplicate-free. -/
theorem create_tags_duplicate :
    (createWithOptions envAllOk cfgTagA 0 sName [] optsTagA).snd = Except.ok resC8
    ∧ resC8.tags = [tagA, tagA]
    ∧ ¬ resC8.tags.Nodup := by
  refine ⟨rfl, rfl, by decide⟩

/-- C8 (amended): the tag list Create stores is the plain concatenation of
the config's default tags and the option tags, with no duplicate
suppression; AddTag is idempotent: adding a tag that is absent twice leaves
exactly one occurrence, and adding a tag already present changes nothing. -/
theorem tag_operations (env : CreateEnv) (cfg : Config) (now : Int)
    (name : String) (volumes : List Volume) (opts : CreateOptions)
    (res snap : Snapshot) (tag : String) :
    ((createWithOptions env cfg now name volumes opts).snd = Except.ok res →
      res.tags = cfg.defaultTags ++ opts.tags)
    ∧ (tag ∉ snap.tags → (addTag (addTag snap tag) tag).tags.count tag = 1)
    ∧ (tag ∈ snap.tags → addTag snap tag = snap) := by
  refine ⟨?_, ?_, ?_⟩
  · intro h
    cases hm : env.mkdirOk with
    | false => simp [createWithOptions, hm] at h
    | true =>
      simp only [createWithOptions, hm, if_true] at h
      rcases hres : (exportLoop env (cfg.snapshotDir ++ slashS ++ name) volumes).snd with e | pr
      · rw [hres] at h
        simp at h
      · rw [hres] at h
        cases hw : env.writeOk with
        | false => simp [hw] at h
        | true =>
          simp only [hw, if_true, Except.ok.injEq] at h
          rw [← h]
  · intro h
    have h0 : sliceContains snap.tags tag = false := by
      rw [Bool.eq_false_iff]
      intro hc
      exact h ((sliceContains_iff snap.tags tag).mp hc)
    have step1 : addTag snap tag = { snap with tags := snap.tags ++ [tag] } := by
      unfold addTag
      rw [h0]
      simp
    have h1 : sliceContains (snap.tags ++ [tag]) tag = true := by
      rw [sliceContains_iff]
      simp
    have step2 : addTag { snap with tags := snap.tags ++ [tag] } tag
        = { snap with tags := snap.tags ++ [tag] } := by
      unfold addTag
      rw [show ({ snap with tags := snap.tags ++ [tag] } : Snapshot).tags
          = snap.tags ++ [tag] from rfl, h1]
      simp
    rw [step1, step2]
    have hcount : snap.tags.count tag = 0 := List.count_eq_zero.mpr h
    simp [List.count_append, hcount]
  · intro h
    unfold addTag
    rw [if_pos (by rw [(sliceContains_iff snap.tags tag)]; exact h)]

/-- C8 witness: the three conjuncts at concrete records and tags. -/
theorem tag_operations_witness :
    resC8.tags = cfgTagA.defaultTags ++ optsTagA.tags
    ∧ (addTag (addTag (snapRec sName 0) tagA) tagA).tags.count tagA = 1
    ∧ addTag resC8 tagA = resC8 :=
  ⟨(tag_operations envAllOk cfgTagA 0 sName [] optsTagA resC8 (snapRec sName 0) tagA).1 rfl,
    (tag_operations envAllOk cfgTagA 0 sName [] optsTagA resC8 (snapRec sName 0) tagA).2.1 (by decide),
    (tag_operations envAllOk cfgTagA 0 sName [] optsTagA resC8 resC8 tagA).2.2 (by decide)⟩

/-- C10: every record surfaced by Get, List or Restore carries as its
storage path the snapshot root joined with the directory name, independent
of the path value persisted inside the record, so a snapshot directory
moved under the root is reported and restored at its current location. -/
theorem records_use_actual_directory (snap : Snapshot) (cfg : Config)
    (name : String) (entries : List DirEntry) (p1 p2 : String)
    (benv : CreateEnv) (imp : String → Bool) (now : Int) (nowStr : String) :
    (getSnapshot (some snap) cfg name =
      Except.ok { snap with path := cfg.snapshotDir ++ slashS ++ name })
    ∧ (getSnapshot (some { snap with path := p1 }) cfg name =
        getSnapshot (some { snap with path := p2 }) cfg name)
    ∧ (∀ s ∈ listSnapshots entries cfg,
        ∃ e ∈ entries, e.isDir = true ∧ s.path = cfg.snapshotDir ++ slashS ++ e.name)
    ∧ (restore { record := some { snap with path := p1 }, backupEnv := benv, impOk := imp }
          cfg now nowStr name =
        restore { record := some { snap with path := p2 }, backupEnv := benv, impOk := imp }
          cfg now nowStr name) := by
  refine ⟨rfl, rfl, ?_, ?_⟩
  swap
  · simp only [restore, loadMetadata]
    rw [impLoop_congr
      { record := some { snap with path := p1 }, backupEnv := benv, impOk := imp }
      { record := some { snap with path := p2 }, backupEnv := benv, impOk := imp }
      rfl (cfg.snapshotDir ++ slashS ++ name) snap.volumes]
  intro s hs
  rw [listSnapshots_eq_sort] at hs
  have hs2 : s ∈ specCatalog entries cfg := (sortByTsDesc_perm _).mem_iff.mp hs
  unfold specCatalog at hs2
  rw [List.mem_filterMap] at hs2
  obtain ⟨e, he, heq⟩ := hs2
  by_cases hd : e.isDir = true
  · rw [if_pos hd] at heq
    cases hr : e.record with
    | none =>
      rw [hr] at heq
      simp at heq
    | some r =>
      rw [hr] at heq
      rw [Option.map_some'] at heq
      rw [Option.some.injEq] at heq
      refine ⟨e, he, hd, ?_⟩
      rw [← heq]
  · rw [if_neg hd] at heq
    simp at heq

def sOldC10 : Snapshot := { snapRec nOld 90 with path := dotDataclean ++ slashS ++ nOld }

/-- C10 witness: the membership conjunct at a concrete catalog whose
stored record carries a stale path. -/
theorem records_use_actual_directory_witness :
    ∃ e ∈ entriesC6, e.isDir = true ∧ sOldC10.path = cfg0.snapshotDir ++ slashS ++ e.name :=
  (records_use_actual_directory (snapRec nOld 90) cfg0 sName entriesC6 emptyS emptyS
      envAllOk (fun _ => true) 0 tN).2.2.1 sOldC10 (by decide)

end DataClean
